import Mathlib

/-!
Verification development for the rss-agent pipeline.

Shallow embedding of the four source modules:
- `rss_fetcher.py` : history store (`load_history` / `save_history`) and the
  fetch-filter-dedupe pipeline (`fetch_and_filter_articles`);
- `main.py` : the orchestrator (`main`), modelled as `mainRun`;
- `llm_processor.py` : the retry loop of
  `LLMProcessor.generate_digest_from_articles`;
- `email_sender.py` : `send_email`, an external collaborator returning a
  success boolean, modelled as an input to `mainRun`.

Feed entries come from `feedparser`; a field can be absent, so every entry
field is an `Option`.  Python ids may be `None` (when an entry has neither
id, link nor title), so ids flow through the pipeline as `Option String`
and the history ledger is a list of such values (a JSON array that may
contain null).  Publication timestamps are modelled as `Int` epoch seconds;
`datetime.fromtimestamp (time.mktime ...)` is order-preserving, so the
comparison against the cutoff is an `Int` comparison.
-/

/-- Python `str.lower()`, as a character-wise map (extensionally
`String.toLower`, written so the kernel can evaluate it). -/
def strLower (s : String) : String := String.mk (s.toList.map Char.toLower)

/-- Python substring containment: `needle in haystack`. -/
def containsSub (haystack needle : String) : Bool :=
  (List.range (haystack.toList.length + 1)).any fun i =>
    needle.toList.isPrefixOf (haystack.toList.drop i)

/-- One parsed feed entry (`feedparser` dict).  `entry_id` is the `id` key;
`published_parsed` is the parsed timestamp in epoch seconds (none when the
key is absent or falsy); `published` is the raw date string. -/
structure Entry where
  entry_id : Option String
  link : Option String
  title : Option String
  summary : Option String
  published_parsed : Option Int
  published : Option String
deriving Repr, DecidableEq

/-- The article dict appended to `articles` in `fetch_and_filter_articles`. -/
structure Article where
  title : String
  link : String
  summary : String
  published : String
  is_primary : Bool
  id : Option String
deriving Repr, DecidableEq

/-- The identity resolution line, a nest of three dict gets over the keys
id, link and title: the first *present* key wins, whatever its value; all
three absent gives `None`. -/
def uniqueId (e : Entry) : Option String :=
  e.entry_id <|> e.link <|> e.title

/-- Epoch seconds of `datetime(2026, 2, 15)` (the `CUTOFF_DATE` constant). -/
def CUTOFF_DATE : Int := 1771113600

/-- The `BD700_KEYWORDS` inclusion list. -/
def BD700_KEYWORDS : List String :=
  ["e-11", "e-11a", "e11a",
   "bacn", "battlefield airborne communications node",
   "430th expeditionary", "430 eecs",
   "472 ecs", "472nd ecs",
   "319th reconnaissance", "319 rw",
   "grand forks afb", "grand forks",
   "hanscom afb",
   "bd-700", "bd700",
   "global express", "global 6000",
   "airworthiness", "directive", "ad",
   "service bulletin", "sb",
   "maintenance", "safety", "incident", "faa", "easa", "transport canada",
   "northrop grumman",
   "cae inc",
   "flight training", "simulator"]

/-- The exclusion terms checked against the lowercased title+summary. -/
def EXCLUDE_TERMS : List String :=
  ["7500", "8000", "order", "delivery", "stock", "quarterly"]

/-- Feed-url substrings marking a primary military/regulatory source. -/
def PRIMARY_SOURCES : List String :=
  ["tc.gc.ca", "dvidshub", "af.mil", "defense.gov"]

/-- Outcome of processing one entry inside the per-feed loop. -/
inductive EntryResult where
  | dupSkip : EntryResult
  | dateSkip : EntryResult
  | exclSkip : EntryResult
  | noMatch : EntryResult
  | accepted : Article → EntryResult
deriving Repr, DecidableEq

/-- The local `content_text`: lowercased `title + " " + summary`, with the
defaults of the source for missing fields. -/
def content_text (e : Entry) : String :=
  strLower (e.title.getD "" ++ " " ++ e.summary.getD "")

/-- The local `is_primary`: the feed url matches an authoritative-source
substring, or the title contains `"CF-"`. -/
def is_primary_flag (feed_url : String) (e : Entry) : Bool :=
  PRIMARY_SOURCES.any (fun x => containsSub feed_url x)
    || containsSub (e.title.getD "") "CF-"

/-- Step 4 of the loop body: keyword and content filtering, building the
article dict on acceptance.  `now` stands for `str(datetime.now())`, the
default for a missing `published` string. -/
def keywordStep (now : String) (feed_url : String) (e : Entry)
    (unique_id : Option String) : EntryResult :=
  if EXCLUDE_TERMS.any (fun x => containsSub (content_text e) x) then
    .exclSkip
  else if BD700_KEYWORDS.any (fun k => containsSub (content_text e) k) then
    .accepted ⟨e.title.getD "", e.link.getD "#", e.summary.getD "",
               e.published.getD now, is_primary_flag feed_url e, unique_id⟩
  else
    .noMatch

/-- The loop body of `fetch_and_filter_articles` for one entry:
identity resolution, duplicate check, date check, keyword filtering. -/
def processEntry (cutoff : Int) (now : String) (sent : List (Option String))
    (feed_url : String) (e : Entry) : EntryResult :=
  if sent.contains (uniqueId e) then
    .dupSkip
  else
    match e.published_parsed with
    | some ts =>
        if ts < cutoff then .dateSkip
        else keywordStep now feed_url e (uniqueId e)
    | none => keywordStep now feed_url e (uniqueId e)

/-- The inner `for entry in feed.entries` loop: accepted articles in entry
order, and the unique ids appended to `new_ids_found`. -/
def processFeed (cutoff : Int) (now : String) (sent : List (Option String))
    (feed_url : String) : List Entry → List Article × List (Option String)
  | [] => ([], [])
  | e :: rest =>
    match processEntry cutoff now sent feed_url e with
    | .accepted a =>
        (a :: (processFeed cutoff now sent feed_url rest).1,
         uniqueId e :: (processFeed cutoff now sent feed_url rest).2)
    | _ => processFeed cutoff now sent feed_url rest

/-- The outer `for feed_url in RSS_FEEDS` loop.  Each feed comes with the
result of `feedparser.parse`: `.ok entries`, or `.error ()` when a network,
timeout or parse error is raised; the `except` clause logs it and the loop
moves on, so a failed feed contributes nothing. -/
def processFeeds (cutoff : Int) (now : String) (sent : List (Option String)) :
    List (String × Except Unit (List Entry)) →
      List Article × List (Option String)
  | [] => ([], [])
  | (feed_url, .ok entries) :: rest =>
    ((processFeed cutoff now sent feed_url entries).1
       ++ (processFeeds cutoff now sent rest).1,
     (processFeed cutoff now sent feed_url entries).2
       ++ (processFeeds cutoff now sent rest).2)
  | (_, .error _) :: rest => processFeeds cutoff now sent rest

/-- `fetch_and_filter_articles`: loads the history (given here as the
already-loaded `history` list), walks the feeds, and returns
(articles, new ids found, old history ids). -/
def fetch_and_filter_articles (cutoff : Int) (now : String)
    (history : List (Option String))
    (feeds : List (String × Except Unit (List Entry))) :
    List Article × List (Option String) × List (Option String) :=
  let r := processFeeds cutoff now history feeds
  (r.1, r.2, history)

/-- `save_history`: the persisted list after a successful write,
`sent_ids[-1000:]`. -/
def save_history (sent_ids : List (Option String)) : List (Option String) :=
  sent_ids.drop (sent_ids.length - 1000)

/-- `save_history` with its `try/except`: given the pre-write file contents
and whether the write succeeds, returns the file contents afterwards and
whether an exception escaped to the caller (it never does: the handler
logs and returns). -/
def save_history_run (sent_ids : List (Option String)) (writeOk : Bool)
    (oldFile : List (Option String)) : List (Option String) × Bool :=
  if writeOk then (save_history sent_ids, false) else (oldFile, false)

/-- Observable outcome of one `main` run (after the weekday and env-var
guards): process exit code, whether `send_email` was called, whether
`save_history` was called, and the history file contents afterwards. -/
structure RunResult where
  exitCode : Nat
  emailCalled : Bool
  saveCalled : Bool
  historyFile : List (Option String)
deriving Repr, DecidableEq

/-- The `main` workflow of `main.py`, steps 3-6.  `histFile` is the ledger
`load_history` returns at run start; `digest` is what `generate_digest`
returns (an external collaborator: `None` on failure); `deliveryOk` is the
boolean `send_email` returns.  The source assigns that boolean to `success`
and never reads it, so `deliveryOk` is unused here as well: `save_history`
runs on every non-dry-run delivery path. -/
def mainRun (cutoff : Int) (now : String) (dry_run : Bool)
    (feeds : List (String × Except Unit (List Entry)))
    (histFile : List (Option String))
    (digest : Option String) (deliveryOk : Bool) : RunResult :=
  if (fetch_and_filter_articles cutoff now histFile feeds).1.isEmpty then
    ⟨0, false, false, histFile⟩
  else
    match digest with
    | none => ⟨1, false, false, histFile⟩
    | some d =>
      if d = "" || containsSub d "Error" then
        ⟨1, false, false, histFile⟩
      else if dry_run then
        ⟨0, false, false, histFile⟩
      else
        -- `success = send_email(...)` is assigned but never read: the
        -- history update below is unconditional, so `deliveryOk` is unused.
        ⟨0, true, true,
         save_history ((fetch_and_filter_articles cutoff now histFile feeds).2.2
           ++ (fetch_and_filter_articles cutoff now histFile feeds).2.1)⟩

/-- `MAX_RETRIES` in `generate_digest_from_articles`. -/
def MAX_RETRIES : Nat := 3

/-- `RETRY_DELAY_SECONDS`: the fixed delay slept between retries. -/
def RETRY_DELAY_SECONDS : Nat := 3

/-- What one `chat.completions.create` call does on attempt `i`. -/
inductive AttemptOutcome where
  /-- The call returns a response; `d` is the stripped digest text. -/
  | success (d : String) : AttemptOutcome
  /-- `APIConnectionError` or `RateLimitError` is raised. -/
  | transient : AttemptOutcome
  /-- `APIError` is raised. -/
  | fatalAPI : AttemptOutcome
  /-- Any other exception is raised. -/
  | unexpected : AttemptOutcome
deriving Repr, DecidableEq

/-- The `for attempt in range(1, MAX_RETRIES + 1)` loop.  `oracle i` is the
outcome of the API call on attempt `i`; returns the digest (or none), the number
of attempts made, and the seconds slept between attempts.  `fuel` is the
number of loop iterations left, `MAX_RETRIES - attempt + 1`. -/
def digestLoop (oracle : Nat → AttemptOutcome) :
    Nat → Nat → Nat → Option String × Nat × Nat
  | _, 0, slept => (none, MAX_RETRIES, slept)
  | attempt, fuel + 1, slept =>
    match oracle attempt with
    | .success d => (some d, attempt, slept)
    | .transient =>
        if attempt < MAX_RETRIES then
          digestLoop oracle (attempt + 1) fuel (slept + RETRY_DELAY_SECONDS)
        else
          (none, attempt, slept)
    | .fatalAPI => (none, attempt, slept)
    | .unexpected => (none, attempt, slept)

/-- `LLMProcessor.generate_digest_from_articles`: returns `None` at once on
an empty article list, otherwise runs the bounded retry loop. -/
def generate_digest_from_articles (articles : List Article)
    (oracle : Nat → AttemptOutcome) : Option String × Nat × Nat :=
  if articles.isEmpty then (none, 0, 0)
  else digestLoop oracle 1 MAX_RETRIES 0

/-- The identity rule as the spec words it: the first non-empty value in
the preference list wins; all empty or absent gives none. -/
def specFirstNonEmpty : List (Option String) → Option String
  | [] => none
  | some s :: rest => if s = "" then specFirstNonEmpty rest else some s
  | none :: rest => specFirstNonEmpty rest

/-- The identity rule the code implements: the first *present* value in the
preference list wins, whatever it is (possibly the empty string). -/
def firstPresent : List (Option String) → Option String
  | [] => none
  | some s :: _ => some s
  | none :: rest => firstPresent rest

/-- Concrete test fixture: an entry that survives every filter (dated at
the cutoff, matching the keyword e-11, matching no exclusion term). -/
def sampleEntry : Entry :=
  ⟨none, some "https://ex.com/a1", some "E-11A BACN update", some "maintenance",
   some CUTOFF_DATE, some "2026-02-15"⟩

/-- The article `sampleEntry` turns into when fetched from a
non-authoritative feed url. -/
def sampleArticle : Article :=
  ⟨"E-11A BACN update", "https://ex.com/a1", "maintenance", "2026-02-15",
   false, some "https://ex.com/a1"⟩

/-- Concrete test fixture: a one-feed configuration serving `sampleEntry`. -/
def sampleFeeds : List (String × Except Unit (List Entry)) :=
  [("u", .ok [sampleEntry])]

/-- Concrete test fixture: an entry with no id, no link and no title, whose
summary matches the keyword bacn. -/
def noIdEntry : Entry :=
  ⟨none, none, none, some "bacn update", none, none⟩

/-- Concrete test fixture: an API that raises a rate-limit-class error on
every attempt. -/
def transientOracle : Nat → AttemptOutcome := fun _ => .transient

/-! Helper lemmas about the per-entry filter. -/

theorem contains_ne_true {l : List (Option String)} {x : Option String}
    (h : l.contains x = false) : ¬l.contains x = true :=
  fun hc => Bool.false_ne_true (h.symm.trans hc)

theorem keywordStep_ne_dupSkip (now feed_url : String) (e : Entry)
    (uid : Option String) : keywordStep now feed_url e uid ≠ .dupSkip := by
  unfold keywordStep
  split
  · simp
  · split <;> simp

theorem keywordStep_ne_dateSkip (now feed_url : String) (e : Entry)
    (uid : Option String) : keywordStep now feed_url e uid ≠ .dateSkip := by
  unfold keywordStep
  split
  · simp
  · split <;> simp

theorem keywordStep_accepted_id (now feed_url : String) (e : Entry)
    (uid : Option String) (a : Article)
    (h : keywordStep now feed_url e uid = .accepted a) : a.id = uid := by
  unfold keywordStep at h
  split at h
  · exact absurd h (by simp)
  · split at h
    · injection h with h'
      subst h'
      rfl
    · exact absurd h (by simp)

theorem processEntry_accepted (cutoff : Int) (now : String)
    (sent : List (Option String)) (feed_url : String) (e : Entry) (a : Article)
    (h : processEntry cutoff now sent feed_url e = .accepted a) :
    a.id = uniqueId e ∧ sent.contains (uniqueId e) = false := by
  unfold processEntry at h
  split at h
  · exact absurd h (by simp)
  next hc =>
    refine ⟨?_, by simpa using hc⟩
    split at h
    · split at h
      · exact absurd h (by simp)
      · exact keywordStep_accepted_id _ _ _ _ _ h
    · exact keywordStep_accepted_id _ _ _ _ _ h

theorem processFeed_fresh (cutoff : Int) (now : String)
    (sent : List (Option String)) (feed_url : String) (es : List Entry) :
    (∀ x ∈ (processFeed cutoff now sent feed_url es).2,
       sent.contains x = false) ∧
    (∀ a ∈ (processFeed cutoff now sent feed_url es).1,
       sent.contains a.id = false) := by
  induction es with
  | nil => simp [processFeed]
  | cons e rest ih =>
    unfold processFeed
    split
    next a heq =>
      obtain ⟨hid, hfresh⟩ := processEntry_accepted _ _ _ _ _ _ heq
      refine ⟨?_, ?_⟩
      · intro x hx
        rcases List.mem_cons.mp hx with h | h
        · subst h
          exact hfresh
        · exact ih.1 x h
      · intro b hb
        rcases List.mem_cons.mp hb with h | h
        · subst h
          rw [hid]
          exact hfresh
        · exact ih.2 b h
    next _ =>
      exact ih

theorem processFeeds_fresh (cutoff : Int) (now : String)
    (sent : List (Option String))
    (feeds : List (String × Except Unit (List Entry))) :
    (∀ x ∈ (processFeeds cutoff now sent feeds).2,
       sent.contains x = false) ∧
    (∀ a ∈ (processFeeds cutoff now sent feeds).1,
       sent.contains a.id = false) := by
  induction feeds with
  | nil => simp [processFeeds]
  | cons f rest ih =>
    obtain ⟨feed_url, res⟩ := f
    cases res with
    | error _ => simpa [processFeeds] using ih
    | ok entries =>
      refine ⟨?_, ?_⟩
      · intro x hx
        simp only [processFeeds, List.mem_append] at hx
        rcases hx with h | h
        · exact (processFeed_fresh cutoff now sent feed_url entries).1 x h
        · exact ih.1 x h
      · intro a ha
        simp only [processFeeds, List.mem_append] at ha
        rcases ha with h | h
        · exact (processFeed_fresh cutoff now sent feed_url entries).2 a h
        · exact ih.2 a h

theorem uniqueId_eq_firstPresent (e : Entry) :
    uniqueId e = firstPresent [e.entry_id, e.link, e.title] := by
  obtain ⟨i, l, t, s, p, pu⟩ := e
  cases i <;> cases l <;> cases t <;> rfl

theorem processFeed_append (cutoff : Int) (now : String)
    (sent : List (Option String)) (feed_url : String)
    (es₁ es₂ : List Entry) :
    processFeed cutoff now sent feed_url (es₁ ++ es₂)
      = ((processFeed cutoff now sent feed_url es₁).1
           ++ (processFeed cutoff now sent feed_url es₂).1,
         (processFeed cutoff now sent feed_url es₁).2
           ++ (processFeed cutoff now sent feed_url es₂).2) := by
  induction es₁ with
  | nil => simp [processFeed]
  | cons e rest ih =>
    simp only [List.cons_append, processFeed]
    split <;> simp [ih]

theorem processFeeds_error_skip (cutoff : Int) (now : String)
    (sent : List (Option String)) (u : String)
    (fs₁ fs₂ : List (String × Except Unit (List Entry))) :
    processFeeds cutoff now sent (fs₁ ++ (u, .error ()) :: fs₂)
      = processFeeds cutoff now sent (fs₁ ++ fs₂) := by
  induction fs₁ with
  | nil => rfl
  | cons f rest ih =>
    obtain ⟨v, res⟩ := f
    cases res with
    | ok entries => simp [processFeeds, ih]
    | error _ => simpa [processFeeds] using ih

/-! The claims. -/

/-- C1: the claim says history is committed if and only if delivery
succeeded.  The code assigns the boolean `send_email` returns to `success`
and never reads it, so on the non-dry-run path `save_history` runs and the
new ids are persisted even when delivery reported failure: here a run with
`deliveryOk = false` still calls save and appends the new id, and the run
result does not depend on the delivery boolean at all. -/
theorem commit_gating_code_bug :
    (mainRun CUTOFF_DATE "now" false sampleFeeds [] (some "digest")
        false).saveCalled = true ∧
    (mainRun CUTOFF_DATE "now" false sampleFeeds [] (some "digest")
        false).historyFile = [some "https://ex.com/a1"] ∧
    mainRun CUTOFF_DATE "now" false sampleFeeds [] (some "digest") false
      = mainRun CUTOFF_DATE "now" false sampleFeeds [] (some "digest") true := by
  refine ⟨by decide, by decide, ?_⟩
  rfl

/-- C2 counterexample: the claim says the first non-empty of
(native id, link, title) wins and an entry with none of the three is
skipped.  On an entry whose id key is present but empty, the code takes
the empty id instead of the non-empty link; and an entry with no id, link
or title is not skipped: it is accepted with a null id, which is also
recorded in the new-ids list. -/
theorem identity_resolution_counterexample :
    (uniqueId ⟨some "", some "https://x", some "T", none, none, none⟩
        = some "" ∧
     specFirstNonEmpty [some "", some "https://x", some "T"]
        = some "https://x") ∧
    (processEntry CUTOFF_DATE "now" [] "u" noIdEntry
       = .accepted ⟨"", "#", "bacn update", "now", false, none⟩ ∧
     (fetch_and_filter_articles CUTOFF_DATE "now" []
        [("u", .ok [noIdEntry])]).2.1 = [none]) := by
  decide

/-- C2 amended: the id of every accepted entry is the first *present* of
(native id, link, title), whatever its value (possibly empty); an entry
with none of the three is not skipped: with no date and a fresh null id it
proceeds to keyword filtering like any other entry. -/
theorem identity_resolution_amended (cutoff : Int) (now : String)
    (sent : List (Option String)) (feed_url : String) (e : Entry)
    (a : Article) :
    (processEntry cutoff now sent feed_url e = .accepted a →
       a.id = firstPresent [e.entry_id, e.link, e.title]) ∧
    (e.entry_id = none → e.link = none → e.title = none →
       e.published_parsed = none →
       sent.contains (none : Option String) = false →
       processEntry cutoff now sent feed_url e
         = keywordStep now feed_url e none) := by
  constructor
  · intro h
    rw [(processEntry_accepted cutoff now sent feed_url e a h).1]
    exact uniqueId_eq_firstPresent e
  · intro hi hl ht hp hc
    have hu : uniqueId e = none := by simp [uniqueId, hi, hl, ht]
    simp only [processEntry, hp, hu]
    rw [if_neg (contains_ne_true hc)]

theorem identity_resolution_amended_witness :
    (⟨"", "#", "bacn update", "now", false, none⟩ : Article).id
        = firstPresent [noIdEntry.entry_id, noIdEntry.link, noIdEntry.title] ∧
    processEntry CUTOFF_DATE "now" [] "u" noIdEntry
        = keywordStep "now" "u" noIdEntry none :=
  ⟨(identity_resolution_amended CUTOFF_DATE "now" [] "u" noIdEntry
      ⟨"", "#", "bacn update", "now", false, none⟩).1 (by decide),
   (identity_resolution_amended CUTOFF_DATE "now" [] "u" noIdEntry
      ⟨"", "#", "bacn update", "now", false, none⟩).2 rfl rfl rfl rfl
     (by decide)⟩

/-- C3: an entry that passes the duplicate check and has a parsed
timestamp is discarded by the date rule exactly when the timestamp is
strictly below the cutoff (so a timestamp equal to the cutoff is kept),
and an entry with no parsed timestamp goes straight to keyword
filtering. -/
theorem date_cutoff_boundary (cutoff : Int) (now : String)
    (sent : List (Option String)) (feed_url : String) (e : Entry)
    (hdup : sent.contains (uniqueId e) = false) :
    (∀ ts, e.published_parsed = some ts →
      (processEntry cutoff now sent feed_url e = .dateSkip ↔ ts < cutoff)) ∧
    (e.published_parsed = none →
      processEntry cutoff now sent feed_url e
        = keywordStep now feed_url e (uniqueId e)) := by
  constructor
  · intro ts hts
    simp only [processEntry, hts]
    rw [if_neg (contains_ne_true hdup)]
    constructor
    · intro h
      by_contra hlt
      rw [if_neg hlt] at h
      exact keywordStep_ne_dateSkip _ _ _ _ h
    · intro h
      rw [if_pos h]
  · intro hn
    simp only [processEntry, hn]
    rw [if_neg (contains_ne_true hdup)]

theorem date_cutoff_boundary_witness :
    (∀ ts, sampleEntry.published_parsed = some ts →
      (processEntry CUTOFF_DATE "now" [] "u" sampleEntry = .dateSkip
        ↔ ts < CUTOFF_DATE)) ∧
    (sampleEntry.published_parsed = none →
      processEntry CUTOFF_DATE "now" [] "u" sampleEntry
        = keywordStep "now" "u" sampleEntry (uniqueId sampleEntry)) :=
  date_cutoff_boundary CUTOFF_DATE "now" [] "u" sampleEntry (by decide)

/-- C4: an id contained in the history ledger loaded at run start never
appears as the id of an output article and is never appended to the
new-ids list, whatever the other fields of the entries are. -/
theorem no_redelivery (cutoff : Int) (now : String)
    (history : List (Option String))
    (feeds : List (String × Except Unit (List Entry)))
    (uid : Option String) (h : uid ∈ history) :
    (∀ a ∈ (fetch_and_filter_articles cutoff now history feeds).1,
       a.id ≠ uid) ∧
    uid ∉ (fetch_and_filter_articles cutoff now history feeds).2.1 := by
  have hc : history.contains uid = true := by
    simpa [List.contains] using h
  constructor
  · intro a ha heq
    have := (processFeeds_fresh cutoff now history feeds).2 a
      (by simpa [fetch_and_filter_articles] using ha)
    rw [heq] at this
    rw [this] at hc
    exact Bool.false_ne_true hc
  · intro hmem
    have := (processFeeds_fresh cutoff now history feeds).1 uid
      (by simpa [fetch_and_filter_articles] using hmem)
    rw [this] at hc
    exact Bool.false_ne_true hc

theorem no_redelivery_witness :
    (∀ a ∈ (fetch_and_filter_articles CUTOFF_DATE "now"
        [some "https://ex.com/a1"] sampleFeeds).1,
       a.id ≠ some "https://ex.com/a1") ∧
    some "https://ex.com/a1" ∉ (fetch_and_filter_articles CUTOFF_DATE "now"
        [some "https://ex.com/a1"] sampleFeeds).2.1 :=
  no_redelivery CUTOFF_DATE "now" [some "https://ex.com/a1"] sampleFeeds
    (some "https://ex.com/a1") (by decide)

/-- C5: save never raises to its caller; a successful write persists a
suffix of the input of length min 1000 (so exactly the last 1000 ids, in
their original order, when the input is longer, and the input unchanged
when it is not); a failed write leaves the file as it was. -/
theorem save_history_last_1000 (ids oldFile : List (Option String))
    (writeOk : Bool) :
    (save_history_run ids writeOk oldFile).2 = false ∧
    save_history ids <:+ ids ∧
    (save_history ids).length = min 1000 ids.length ∧
    (ids.length ≤ 1000 → save_history ids = ids) ∧
    (save_history_run ids true oldFile).1 = save_history ids ∧
    (save_history_run ids false oldFile).1 = oldFile := by
  refine ⟨?_, ?_, ?_, ?_, ?_, ?_⟩
  · unfold save_history_run
    split <;> rfl
  · exact List.drop_suffix _ _
  · simp only [save_history, List.length_drop]
    omega
  · intro h
    simp only [save_history, Nat.sub_eq_zero_of_le h, List.drop_zero]
  · simp [save_history_run]
  · simp [save_history_run]

theorem save_history_last_1000_witness :
    (save_history_run [some "a", some "b"] true []).2 = false ∧
    save_history [some "a", some "b"] <:+ [some "a", some "b"] ∧
    (save_history [some "a", some "b"]).length
      = min 1000 [some "a", some "b"].length ∧
    ([some "a", some "b"].length ≤ 1000 →
      save_history [some "a", some "b"] = [some "a", some "b"]) ∧
    (save_history_run [some "a", some "b"] true []).1
      = save_history [some "a", some "b"] ∧
    (save_history_run [some "a", some "b"] false []).1 = [] :=
  save_history_last_1000 [some "a", some "b"] [] true

/-- C6: with the dry-run flag the history file is left exactly as loaded,
save is never called, and no email is sent, on every path of the run. -/
theorem dry_run_non_mutation (cutoff : Int) (now : String)
    (feeds : List (String × Except Unit (List Entry)))
    (histFile : List (Option String)) (digest : Option String)
    (deliveryOk : Bool) :
    (mainRun cutoff now true feeds histFile digest deliveryOk).historyFile
      = histFile ∧
    (mainRun cutoff now true feeds histFile digest deliveryOk).saveCalled
      = false ∧
    (mainRun cutoff now true feeds histFile digest deliveryOk).emailCalled
      = false := by
  unfold mainRun
  split
  · exact ⟨rfl, rfl, rfl⟩
  · cases digest with
    | none => exact ⟨rfl, rfl, rfl⟩
    | some d =>
      simp only
      split
      · exact ⟨rfl, rfl, rfl⟩
      · exact ⟨rfl, rfl, rfl⟩

/-- C7: a feed whose fetch or parse raises contributes zero entries and the
run carries on with the remaining feeds in configured order, unchanged: the
result with the failing feed equals the result without it, and the error
never escapes `fetch_and_filter_articles`. -/
theorem per_feed_error_containment (cutoff : Int) (now : String)
    (history : List (Option String)) (u : String)
    (fs₁ fs₂ : List (String × Except Unit (List Entry))) :
    fetch_and_filter_articles cutoff now history
        (fs₁ ++ (u, .error ()) :: fs₂)
      = fetch_and_filter_articles cutoff now history (fs₁ ++ fs₂) := by
  simp only [fetch_and_filter_articles, processFeeds_error_skip]

/-- C8: on a non-empty article list, three rate-limit-class failures in a
row exhaust the retries after 3 attempts and two fixed delays and yield no
digest; a fatal API error or an unexpected error on the first attempt
fails at once with no retry and no delay; a transient failure followed by
a success yields the digest on the second attempt after one delay. -/
theorem summarization_retry_policy (articles : List Article)
    (oracle : Nat → AttemptOutcome) (h : articles ≠ []) :
    (oracle 1 = .transient → oracle 2 = .transient → oracle 3 = .transient →
       generate_digest_from_articles articles oracle
         = (none, MAX_RETRIES, 2 * RETRY_DELAY_SECONDS)) ∧
    (oracle 1 = .fatalAPI →
       generate_digest_from_articles articles oracle = (none, 1, 0)) ∧
    (oracle 1 = .unexpected →
       generate_digest_from_articles articles oracle = (none, 1, 0)) ∧
    (∀ d, oracle 1 = .transient → oracle 2 = .success d →
       generate_digest_from_articles articles oracle
         = (some d, 2, RETRY_DELAY_SECONDS)) := by
  have hne : articles.isEmpty = false := by
    cases articles with
    | nil => exact absurd rfl h
    | cons a rest => rfl
  refine ⟨?_, ?_, ?_, ?_⟩
  · intro h1 h2 h3
    simp [generate_digest_from_articles, hne, MAX_RETRIES,
      RETRY_DELAY_SECONDS, digestLoop, h1, h2, h3]
  · intro h1
    simp [generate_digest_from_articles, hne, MAX_RETRIES, digestLoop, h1]
  · intro h1
    simp [generate_digest_from_articles, hne, MAX_RETRIES, digestLoop, h1]
  · intro d h1 h2
    simp [generate_digest_from_articles, hne, MAX_RETRIES,
      RETRY_DELAY_SECONDS, digestLoop, h1, h2]

theorem summarization_retry_policy_witness :
    generate_digest_from_articles [sampleArticle] transientOracle
      = (none, MAX_RETRIES, 2 * RETRY_DELAY_SECONDS) :=
  (summarization_retry_policy [sampleArticle] transientOracle
    (by decide)).1 rfl rfl rfl

/-- C9: the per-feed filter is a homomorphism over the entry list (so
acceptance of an entry depends only on the ledger loaded at run start,
never on earlier acceptances of the same run), and an accepted entry
occurring twice is emitted twice, its id appended once per occurrence. -/
theorem intra_run_dedup_scope (cutoff : Int) (now : String)
    (sent : List (Option String)) (feed_url : String)
    (es₁ es₂ : List Entry) :
    processFeed cutoff now sent feed_url (es₁ ++ es₂)
      = ((processFeed cutoff now sent feed_url es₁).1
           ++ (processFeed cutoff now sent feed_url es₂).1,
         (processFeed cutoff now sent feed_url es₁).2
           ++ (processFeed cutoff now sent feed_url es₂).2) ∧
    (∀ e a, processEntry cutoff now sent feed_url e = .accepted a →
       processFeed cutoff now sent feed_url [e, e]
         = ([a, a], [uniqueId e, uniqueId e])) := by
  refine ⟨processFeed_append _ _ _ _ _ _, ?_⟩
  intro e a h
  simp [processFeed, h]

theorem intra_run_dedup_scope_witness :
    processFeed CUTOFF_DATE "now" [] "u" [sampleEntry, sampleEntry]
      = ([sampleArticle, sampleArticle],
         [some "https://ex.com/a1", some "https://ex.com/a1"]) := by
  have h := (intra_run_dedup_scope CUTOFF_DATE "now" [] "u"
    [sampleEntry] [sampleEntry]).2 sampleEntry sampleArticle (by decide)
  simpa using h

/-- C10: whenever the digest text contains the substring Error, the run
exits with code 1, neither sends an email nor calls save, and leaves the
history file as loaded, in dry-run and normal mode alike. -/
theorem digest_error_substring_fails_run (cutoff : Int) (now : String)
    (dry_run : Bool) (feeds : List (String × Except Unit (List Entry)))
    (histFile : List (Option String)) (d : String) (deliveryOk : Bool)
    (hne : (fetch_and_filter_articles cutoff now histFile feeds).1.isEmpty
      = false)
    (herr : containsSub d "Error" = true) :
    mainRun cutoff now dry_run feeds histFile (some d) deliveryOk
      = ⟨1, false, false, histFile⟩ := by
  unfold mainRun
  rw [if_neg (by rw [hne]; exact Bool.false_ne_true)]
  simp only
  rw [if_pos (by rw [herr, Bool.or_true])]

theorem digest_error_substring_fails_run_witness :
    mainRun CUTOFF_DATE "now" false sampleFeeds []
        (some "fine digest with Error inside") false
      = ⟨1, false, false, []⟩ :=
  digest_error_substring_fails_run CUTOFF_DATE "now" false sampleFeeds []
    "fine digest with Error inside" false (by decide) (by decide)
